import Mathlib

/-!
Shallow embedding of the chat binary (src/chat/src/main.rs): wire codec
(encode_packet / decode_packet), framed transport (receive_packet), the
server's per-connection handling and broadcast loop, the user-id counter,
and the client's foreground loop.  Bytes are modelled as Nat, u16 values
as Nat with wrapping made explicit via % 65536; buffers and streams are
List Nat.  Code that can panic (out-of-bounds slice indexing, overflowing
arithmetic) is modelled by a dedicated result constructor.
-/

/-- struct Message { from: u16, to: u16, content: Vec<u8> } -/
structure Message where
  from_ : Nat
  to_ : Nat
  content : List Nat
deriving Repr, DecidableEq

/-- enum Packet { UserList, Say(Message) } -/
inductive Packet where
  | UserList : Packet
  | Say : Message → Packet
deriving Repr, DecidableEq

/-- enum MyError { UnknownPacketType, PacketTooLong } -/
inductive MyError where
  | UnknownPacketType : MyError
  | PacketTooLong : MyError
deriving Repr, DecidableEq

/-- Outcome of running a piece of the Rust code: a normal value, a MyError
returned in Err, an I/O error (read_exact on a closed/short stream), or a
panic (slice index out of bounds / overflow). -/
inductive RustResult (α : Type) where
  | ok : α → RustResult α
  | err : MyError → RustResult α
  | ioError : RustResult α
  | panicked : RustResult α
deriving Repr, DecidableEq

/-- NetworkEndian::read_u16: big-endian, first byte is the high byte. -/
def read_u16 (b0 b1 : Nat) : Nat := b0 * 256 + b1

/-- NetworkEndian::write_u16 output bytes (big-endian). -/
def write_u16_bytes (v : Nat) : List Nat := [v / 256 % 256, v % 256]

/-- Overwrite buf[i .. i+vals.length) with vals (callers establish
i + vals.length ≤ buf.length, matching the Rust slice-write bounds). -/
def writeAt (buf : List Nat) (i : Nat) (vals : List Nat) : List Nat :=
  buf.take i ++ vals ++ buf.drop (i + vals.length)

/-- fn decode_packet(buf: &[u8]) -> Result<Packet, ...>.
Reads buf[2]; type 0 => UserList, type 1 => Say from buf[3..5], buf[5..7],
buf[7..]; anything else => UnknownPacketType.  Indexing past the end of
buf is a panic. -/
def decode_packet (buf : List Nat) : RustResult Packet :=
  if buf.length < 3 then .panicked
  else
    let packet_type := buf.getD 2 0
    if packet_type = 0 then .ok .UserList
    else if packet_type = 1 then
      if buf.length < 7 then .panicked
      else .ok (.Say { from_ := read_u16 (buf.getD 3 0) (buf.getD 4 0),
                       to_ := read_u16 (buf.getD 5 0) (buf.getD 6 0),
                       content := buf.drop 7 })
    else .err .UnknownPacketType

/-- fn encode_packet(packet: &Packet, buf: &mut [u8]) -> usize.
Returns the written buffer together with the returned byte count
(length + 2, u16 arithmetic).  A buffer too short for the slice writes is
a panic.  For Say, length = 1 + 2 + 2 + content.len() as u16 (u16
truncation made explicit). -/
def encode_packet (packet : Packet) (buf : List Nat) : RustResult (List Nat × Nat) :=
  match packet with
  | .UserList =>
      if buf.length < 3 then .panicked
      else
        let length := 1
        let buf1 := writeAt buf 0 (write_u16_bytes length)
        let buf2 := writeAt buf1 2 [0]
        .ok (buf2, (length + 2) % 65536)
  | .Say m =>
      if buf.length < m.content.length + 7 then .panicked
      else
        let buf1 := writeAt buf 3 (write_u16_bytes m.from_)
        let buf2 := writeAt buf1 5 (write_u16_bytes m.to_)
        let buf3 := writeAt buf2 7 m.content
        let length := (1 + 2 + 2 + m.content.length % 65536) % 65536
        let buf4 := writeAt buf3 0 (write_u16_bytes length)
        let buf5 := writeAt buf4 2 [1]
        .ok (buf5, (length + 2) % 65536)

/-- Encoding as both call sites use it: a fresh 1024-byte zeroed buffer,
then the first n bytes where n is the count returned by encode_packet. -/
def encode_frame (p : Packet) : RustResult (List Nat) :=
  match encode_packet p (List.replicate 1024 0) with
  | .ok (buf, n) => .ok (buf.take n)
  | .err e => .err e
  | .ioError => .ioError
  | .panicked => .panicked

/-- fn receive_packet(stream) -> Result<Packet, ...>, on a stream modelled
as the list of bytes the peer will deliver.  Returns the result together
with the number of bytes read off the stream.  The length check
(packet_length + 2) > 1024 is u16 arithmetic, so it wraps for
packet_length ≥ 65534; the subsequent slice buf[2..total] then panics
(total < 2). -/
def receive_packet (stream : List Nat) : RustResult Packet × Nat :=
  if stream.length < 2 then (.ioError, stream.length)
  else
    let packet_length := read_u16 (stream.getD 0 0) (stream.getD 1 0)
    let total := (packet_length + 2) % 65536
    if 1024 < total then (.err .PacketTooLong, 2)
    else if total < 2 then (.panicked, 2)
    else if stream.length < total then (.ioError, stream.length)
    else (decode_packet (stream.take total), total)

/-- AtomicU16::fetch_add(1, SeqCst): returns the old value, the stored
value wraps around on overflow. -/
def fetch_add_u16 (s : Nat) : Nat × Nat := (s, (s + 1) % 65536)

/-- NEXT_USER_ID's state just before the n-th accept (0-indexed);
initialised to 1. -/
def counter_state : Nat → Nat
  | 0 => 1
  | n + 1 => (fetch_add_u16 (counter_state n)).2

/-- The user id handed to the n-th accepted connection (0-indexed):
the value fetch_add returns, i.e. the old counter state. -/
def assigned_id (n : Nat) : Nat := (fetch_add_u16 (counter_state n)).1

/-- The server's per-connection receive loop body on a decoded packet:
UserList is a no-op; Say overwrites from with the connection's user_id and
forwards the message to the broadcast channel. -/
def handle_packet (user_id : Nat) (p : Packet) : Option Message :=
  match p with
  | .UserList => none
  | .Say m => some { m with from_ := user_id }

theorem counter_state_closed (n : Nat) : counter_state n = (1 + n) % 65536 := by
  induction n with
  | zero => rfl
  | succ k ih =>
      show (fetch_add_u16 (counter_state k)).2 = (1 + (k + 1)) % 65536
      rw [ih]
      show ((1 + k) % 65536 + 1) % 65536 = (1 + (k + 1)) % 65536
      omega

theorem assigned_id_closed (n : Nat) : assigned_id n = (1 + n) % 65536 := by
  unfold assigned_id fetch_add_u16
  exact counter_state_closed n

/-- C6: Encoding the UserList packet writes exactly the 3 bytes
[0x00, 0x01, 0x00] into the caller's buffer (big-endian payload_length 1,
type byte 0, no body), leaves the rest of the buffer unchanged, and
returns the total byte count 3. -/
theorem encode_user_list_bytes (buf : List Nat) (h : 3 ≤ buf.length) :
    encode_packet .UserList buf = .ok (0 :: 1 :: 0 :: buf.drop 3, 3) := by
  unfold encode_packet writeAt write_u16_bytes
  rw [if_neg (by omega)]
  have hb : ∃ a b c rest, buf = a :: b :: c :: rest := by
    match buf, h with
    | a :: b :: c :: rest, _ => exact ⟨a, b, c, rest, rfl⟩
  obtain ⟨a, b, c, rest, rfl⟩ := hb
  simp

/-- C4: For every Say packet received from a connection with assigned
identity user_id, the message forwarded to the broadcast channel has
from = user_id while to and content are forwarded unchanged; UserList
forwards nothing. -/
theorem server_overwrites_from (user_id : Nat) (m : Message) :
    handle_packet user_id (.Say m)
      = some { from_ := user_id, to_ := m.to_, content := m.content } ∧
    handle_packet user_id .UserList = none := by
  exact ⟨rfl, rfl⟩

/-- C2 counterexample: the claim asserts PacketTooLong for every declared
length L with L + 2 > 1024, up to and including 65535.  At L = 65534
(stream bytes [255, 254]) the u16 addition packet_length + 2 wraps to 0,
the check 0 > 1024 fails, and the slice buf[2..0] panics: the code does
not fail with PacketTooLong there. -/
theorem receive_too_long_wrap_cex :
    read_u16 255 254 = 65534 ∧ 65534 + 2 > 1024 ∧
    (receive_packet [255, 254]).1 = .panicked ∧
    (receive_packet [255, 254]).1 ≠ .err .PacketTooLong := by
  refine ⟨by decide, by decide, by decide, by decide⟩

/-- C2 (amended): for every declared length L with 1023 ≤ L ≤ 65533 (so
that the u16 sum L + 2 does not wrap), receive_packet fails with
PacketTooLong after reading only the 2 length-prefix bytes, regardless of
what else the stream holds. -/
theorem receive_too_long (b0 b1 : Nat) (rest : List Nat)
    (h1 : 1023 ≤ read_u16 b0 b1) (h2 : read_u16 b0 b1 ≤ 65533) :
    receive_packet (b0 :: b1 :: rest) = (.err .PacketTooLong, 2) := by
  unfold receive_packet
  simp only [List.length_cons, List.getD_cons_zero, List.getD_cons_succ]
  rw [if_neg (by omega), if_pos (by omega)]

theorem receive_too_long_witness :
    1023 ≤ read_u16 3 255 ∧ read_u16 3 255 ≤ 65533 ∧
    receive_packet [3, 255] = (.err .PacketTooLong, 2) :=
  ⟨by decide, by decide, receive_too_long 3 255 [] (by decide) (by decide)⟩

/-- C3 counterexample: the claim asserts that assigned identities are
pairwise distinct for every number of accepts, including more than 65535.
The AtomicU16 fetch_add wraps: the 65537-th accepted connection (index
65536) receives the same identity, 1, as the first (index 0). -/
theorem user_id_wrap_cex :
    assigned_id 65536 = assigned_id 0 ∧ (65536 : Nat) ≠ 0 := by
  constructor
  · rw [assigned_id_closed, assigned_id_closed]
  · decide

/-- C3 (amended): identities are assigned by an atomic 16-bit fetch-add
counter starting at 1, so the first 65536 accepted connections receive
pairwise distinct identities; beyond that the u16 counter wraps and
identities repeat. -/
theorem user_ids_distinct (i j : Nat) (hi : i < 65536) (hj : j < 65536)
    (hne : i ≠ j) : assigned_id i ≠ assigned_id j := by
  rw [assigned_id_closed, assigned_id_closed]
  omega

theorem user_ids_distinct_witness :
    (0 : Nat) < 65536 ∧ (1 : Nat) < 65536 ∧ (0 : Nat) ≠ 1 ∧
    assigned_id 0 ≠ assigned_id 1 :=
  ⟨by decide, by decide, by decide,
   user_ids_distinct 0 1 (by decide) (by decide) (by decide)⟩

/-- C5: decode_packet dispatches on the type byte at offset 2 of a
length-delimited buffer: any type byte other than 0 and 1 fails with
UnknownPacketType; type 0 yields UserList; type 1 yields Say built from
offsets 3..5 (from), 5..7 (to) and 7.. (content). -/
theorem decode_packet_dispatch :
    (∀ buf : List Nat, 3 ≤ buf.length → buf.getD 2 0 ≠ 0 → buf.getD 2 0 ≠ 1 →
        decode_packet buf = .err .UnknownPacketType) ∧
    (∀ buf : List Nat, 3 ≤ buf.length → buf.getD 2 0 = 0 →
        decode_packet buf = .ok .UserList) ∧
    (∀ buf : List Nat, 7 ≤ buf.length → buf.getD 2 0 = 1 →
        decode_packet buf =
          .ok (.Say { from_ := read_u16 (buf.getD 3 0) (buf.getD 4 0),
                      to_ := read_u16 (buf.getD 5 0) (buf.getD 6 0),
                      content := buf.drop 7 })) := by
  refine ⟨?_, ?_, ?_⟩
  · intro buf hlen h0 h1
    simp only [decode_packet]
    rw [if_neg (by omega), if_neg h0, if_neg h1]
  · intro buf hlen h0
    simp only [decode_packet]
    rw [if_neg (by omega), if_pos h0]
  · intro buf hlen h1
    simp only [decode_packet, h1]
    rw [if_neg (by omega)]
    norm_num
    intro hlt
    exact absurd hlt (by omega)

theorem decode_packet_dispatch_witness :
    (3 ≤ ([0, 1, 5] : List Nat).length ∧ ([0, 1, 5] : List Nat).getD 2 0 ≠ 0 ∧
      ([0, 1, 5] : List Nat).getD 2 0 ≠ 1 ∧
      decode_packet [0, 1, 5] = .err .UnknownPacketType) ∧
    (3 ≤ ([0, 1, 0] : List Nat).length ∧ ([0, 1, 0] : List Nat).getD 2 0 = 0 ∧
      decode_packet [0, 1, 0] = .ok .UserList) ∧
    (7 ≤ ([0, 7, 1, 0, 2, 0, 3, 104, 105] : List Nat).length ∧
      ([0, 7, 1, 0, 2, 0, 3, 104, 105] : List Nat).getD 2 0 = 1 ∧
      decode_packet [0, 7, 1, 0, 2, 0, 3, 104, 105]
        = .ok (.Say { from_ := 2, to_ := 3, content := [104, 105] })) :=
  ⟨⟨by decide, by decide, by decide,
    decode_packet_dispatch.1 [0, 1, 5] (by decide) (by decide) (by decide)⟩,
   ⟨by decide, by decide,
    decode_packet_dispatch.2.1 [0, 1, 0] (by decide) (by decide)⟩,
   ⟨by decide, by decide,
    decode_packet_dispatch.2.2 [0, 7, 1, 0, 2, 0, 3, 104, 105] (by decide) (by decide)⟩⟩

/-- C9: decode_packet is partial: on any buffer with type byte 1 but
fewer than 7 bytes it panics (out-of-bounds slice) instead of returning
an error; and receive_packet's length check accepts such frames (declared
payload_length 1 through 4 with type byte 1), so receiving them panics.
Decode of a Say frame requires length ≥ 7 as an unchecked precondition. -/
theorem decode_say_partiality :
    (∀ buf : List Nat, buf.getD 2 0 = 1 → buf.length < 7 →
        decode_packet buf = .panicked) ∧
    (∀ (L : Nat) (body : List Nat), 1 ≤ L → L ≤ 4 → body.length = L →
        body.getD 0 0 = 1 → (receive_packet (0 :: L :: body)).1 = .panicked) := by
  have hdec : ∀ buf : List Nat, buf.getD 2 0 = 1 → buf.length < 7 →
      decode_packet buf = .panicked := by
    intro buf h1 h7
    simp only [decode_packet, h1]
    by_cases h3 : buf.length < 3
    · rw [if_pos h3]
    · rw [if_neg h3]
      norm_num
      intro hge
      exact absurd h7 (by omega)
  refine ⟨hdec, ?_⟩
  intro L body hL1 hL4 hlen htype
  have hr : read_u16 0 L = L := by simp [read_u16]
  have hstep : receive_packet (0 :: L :: body)
      = (decode_packet ((0 :: L :: body).take (L + 2)), L + 2) := by
    unfold receive_packet
    simp only [List.length_cons, List.getD_cons_zero, List.getD_cons_succ, hr]
    have ht : (L + 2) % 65536 = L + 2 := by omega
    rw [ht, if_neg (by omega), if_neg (by omega), if_neg (by omega),
        if_neg (by omega)]
  have htake : (0 :: L :: body).take (L + 2) = 0 :: L :: body := by
    have h2 : L + 2 = (L + 1) + 1 := rfl
    rw [h2, List.take_succ_cons, List.take_succ_cons, ← hlen, List.take_length]
  rw [hstep, htake]
  exact hdec (0 :: L :: body) (by simpa using htype) (by simp; omega)

theorem decode_say_partiality_witness :
    (([0, 1, 1] : List Nat).getD 2 0 = 1 ∧ ([0, 1, 1] : List Nat).length < 7 ∧
      decode_packet [0, 1, 1] = .panicked) ∧
    ((1 : Nat) ≤ 1 ∧ (1 : Nat) ≤ 4 ∧ ([1] : List Nat).length = 1 ∧
      ([1] : List Nat).getD 0 0 = 1 ∧ (receive_packet [0, 1, 1]).1 = .panicked) :=
  ⟨⟨by decide, by decide,
    decode_say_partiality.1 [0, 1, 1] (by decide) (by decide)⟩,
   ⟨by decide, by decide, by decide, by decide,
    decode_say_partiality.2 1 [1] (by decide) (by decide) (by decide) (by decide)⟩⟩

/-- C10: encode_packet requires the caller's buffer to hold
content.len() + 7 bytes as an unchecked precondition: any smaller buffer
makes the Say branch panic on its slice writes; in particular with the
fixed 1024-byte buffer the client's foreground loop uses, any content
longer than 1017 bytes panics instead of returning an error. -/
theorem encode_say_buffer_precondition :
    (∀ (m : Message) (buf : List Nat), buf.length < m.content.length + 7 →
        encode_packet (.Say m) buf = .panicked) ∧
    (∀ m : Message, 1017 < m.content.length →
        encode_frame (.Say m) = .panicked) := by
  constructor
  · intro m buf h
    simp only [encode_packet]
    rw [if_pos h]
  · intro m h
    have hp : encode_packet (.Say m) (List.replicate 1024 0) = .panicked := by
      simp only [encode_packet]
      rw [if_pos (by rw [List.length_replicate]; omega)]
    unfold encode_frame
    rw [hp]

theorem encode_say_buffer_precondition_witness :
    (([] : List Nat).length
        < (Message.mk 0 0 [5]).content.length + 7 ∧
      encode_packet (.Say (Message.mk 0 0 [5])) [] = .panicked) ∧
    (1017 < (Message.mk 0 0 (List.replicate 1018 65)).content.length ∧
      encode_frame (.Say (Message.mk 0 0 (List.replicate 1018 65))) = .panicked) :=
  ⟨⟨by decide, encode_say_buffer_precondition.1 (Message.mk 0 0 [5]) [] (by decide)⟩,
   ⟨by show 1017 < (List.replicate 1018 65).length
       rw [List.length_replicate]
       omega,
    encode_say_buffer_precondition.2 (Message.mk 0 0 (List.replicate 1018 65))
      (by show 1017 < (List.replicate 1018 65).length
          rw [List.length_replicate]
          omega)⟩⟩

/-- The broadcast task's inner for-loop over the locked SESSIONS map:
write the encoded bytes to each session's stream; a failed write only
prints an error and the loop moves on.  Sessions are (user_id, stream
handle) pairs; writeOk gives each handle's write outcome.  Returns the
sessions written to, in order, and the sessions whose write failed and
was logged. -/
def write_all_sessions : List (Nat × Nat) → (Nat → Bool) →
    List (Nat × Nat) × List (Nat × Nat)
  | [], _ => ([], [])
  | s :: rest, writeOk =>
      let logged := if writeOk s.2 then [] else [s]
      let r := write_all_sessions rest writeOk
      (s :: r.1, logged ++ r.2)

/-- One iteration of the broadcast task spawned by server_main: encode
the Say packet once into a fresh 1024-byte buffer, write the same bytes
to every registered session, mutate nothing, and continue looping.
Output: the registry afterwards, the (attempted, failed) session lists,
and whether the task keeps running. -/
def broadcast_step (registry : List (Nat × Nat)) (msg : Message)
    (writeOk : Nat → Bool) :
    RustResult (List (Nat × Nat) × (List (Nat × Nat) × List (Nat × Nat)) × Bool) :=
  match encode_frame (.Say msg) with
  | .ok _frame => .ok (registry, write_all_sessions registry writeOk, true)
  | .err e => .err e
  | .ioError => .ioError
  | .panicked => .panicked

theorem write_all_sessions_attempts_all (sessions : List (Nat × Nat))
    (writeOk : Nat → Bool) : (write_all_sessions sessions writeOk).1 = sessions := by
  induction sessions with
  | nil => rfl
  | cons s rest ih => simp [write_all_sessions, ih]

theorem encode_frame_say_ok (m : Message) (h : m.content.length ≤ 1017) :
    ∃ frame, encode_frame (.Say m) = .ok frame := by
  unfold encode_frame
  simp only [encode_packet]
  rw [if_neg (by rw [List.length_replicate]; omega)]
  exact ⟨_, rfl⟩

/-- C7: during a broadcast iteration, a write failure to one session does
not abort delivery to the remaining sessions (every registered session is
attempted, in registry order, whatever writeOk is), does not terminate
the broadcast task, and does not remove any session: the registry after
the iteration is exactly the registry before. -/
theorem broadcast_failure_isolated (registry : List (Nat × Nat))
    (msg : Message) (writeOk : Nat → Bool) (h : msg.content.length ≤ 1017) :
    ∃ failed, broadcast_step registry msg writeOk
      = .ok (registry, (registry, failed), true) := by
  obtain ⟨frame, hf⟩ := encode_frame_say_ok msg h
  refine ⟨(write_all_sessions registry writeOk).2, ?_⟩
  unfold broadcast_step
  rw [hf]
  have h2 : write_all_sessions registry writeOk
      = (registry, (write_all_sessions registry writeOk).2) := by
    rw [Prod.ext_iff]
    exact ⟨write_all_sessions_attempts_all registry writeOk, rfl⟩
  conv_lhs => rw [h2]

theorem broadcast_failure_isolated_witness :
    (Message.mk 1 0 [104, 105]).content.length ≤ 1017 ∧
    ∃ failed,
      broadcast_step [(1, 10), (2, 20)] (Message.mk 1 0 [104, 105])
        (fun h => h == 20)
      = .ok ([(1, 10), (2, 20)], ([(1, 10), (2, 20)], failed), true) :=
  ⟨by decide,
   broadcast_failure_isolated [(1, 10), (2, 20)] (Message.mk 1 0 [104, 105])
     (fun h => h == 20) (by decide)⟩

/-- Rust char::is_whitespace: the Unicode White_Space property. -/
def rust_is_whitespace (c : Char) : Bool :=
  decide ((0x09 ≤ c.toNat ∧ c.toNat ≤ 0x0D) ∨ c.toNat = 0x20 ∨ c.toNat = 0x85 ∨
    c.toNat = 0xA0 ∨ c.toNat = 0x1680 ∨
    (0x2000 ≤ c.toNat ∧ c.toNat ≤ 0x200A) ∨ c.toNat = 0x2028 ∨
    c.toNat = 0x2029 ∨ c.toNat = 0x202F ∨ c.toNat = 0x205F ∨ c.toNat = 0x3000)

/-- str::trim: remove leading and trailing whitespace characters. -/
def rust_trim (s : List Char) : List Char :=
  ((s.dropWhile rust_is_whitespace).reverse.dropWhile rust_is_whitespace).reverse

/-- UTF-8 bytes of one character (str::as_bytes views the UTF-8 encoding). -/
def utf8_encode_char (c : Char) : List Nat :=
  let n := c.toNat
  if n < 0x80 then [n]
  else if n < 0x800 then [0xC0 + n / 64, 0x80 + n % 64]
  else if n < 0x10000 then [0xE0 + n / 4096, 0x80 + n / 64 % 64, 0x80 + n % 64]
  else [0xF0 + n / 262144, 0x80 + n / 4096 % 64, 0x80 + n / 64 % 64, 0x80 + n % 64]

/-- UTF-8 bytes of a character sequence. -/
def utf8_encode (s : List Char) : List Nat := (s.map utf8_encode_char).flatten

/-- client_main's foreground loop body for one line read from stdin:
trim it; if the trimmed content has byte length 0, skip (continue);
otherwise build Say { from: 0, to: 0, content: trimmed bytes } to encode
and send. -/
def client_process_line (line : List Char) : Option Message :=
  let content := utf8_encode (rust_trim line)
  if content.length = 0 then none
  else some { from_ := 0, to_ := 0, content := content }

theorem utf8_encode_char_ne_nil (c : Char) : utf8_encode_char c ≠ [] := by
  unfold utf8_encode_char
  by_cases h1 : c.toNat < 128
  · simp [h1]
  · by_cases h2 : c.toNat < 2048
    · simp [h1, h2]
    · by_cases h3 : c.toNat < 65536
      · simp [h1, h2, h3]
      · simp [h1, h2, h3]

theorem utf8_encode_eq_nil_iff (s : List Char) : utf8_encode s = [] ↔ s = [] := by
  cases s with
  | nil => simp [utf8_encode]
  | cons a t =>
      simp only [utf8_encode, List.map_cons, List.flatten_cons, List.append_eq_nil]
      simp [utf8_encode_char_ne_nil a]

/-- C8: the client's foreground loop skips every input line that is blank
after trimming whitespace, and wraps every non-blank line into a Say
message with from = 0, to = 0 and content the trimmed line's UTF-8
bytes. -/
theorem client_line_handling (line : List Char) :
    client_process_line line =
      if rust_trim line = [] then none
      else some { from_ := 0, to_ := 0,
                  content := utf8_encode (rust_trim line) } := by
  unfold client_process_line
  by_cases h : rust_trim line = []
  · simp [h, utf8_encode]
  · have hne : utf8_encode (rust_trim line) ≠ [] := by
      rw [ne_eq, utf8_encode_eq_nil_iff]
      exact h
    rw [if_neg h, if_neg (by simpa [List.length_eq_zero] using hne)]

theorem writeAt_cons_succ (a : Nat) (l vals : List Nat) (i : Nat) :
    writeAt (a :: l) (i + 1) vals = a :: writeAt l i vals := by
  unfold writeAt
  rw [List.take_succ_cons]
  have h : i + 1 + vals.length = (i + vals.length) + 1 := by omega
  rw [h, List.drop_succ_cons]
  simp

theorem writeAt_zero (l vals : List Nat) :
    writeAt l 0 vals = vals ++ l.drop vals.length := by
  unfold writeAt
  simp

theorem encode_packet_say (m : Message) (hk : m.content.length ≤ 1017) :
    encode_packet (.Say m) (List.replicate 1024 0)
      = .ok ((5 + m.content.length) / 256 % 256 :: (5 + m.content.length) % 256 :: 1 ::
             m.from_ / 256 % 256 :: m.from_ % 256 ::
             m.to_ / 256 % 256 :: m.to_ % 256 ::
             (m.content ++ List.replicate (1017 - m.content.length) 0),
             m.content.length + 7) := by
  simp only [encode_packet]
  rw [if_neg (by rw [List.length_replicate]; omega)]
  have h1 : (1 + 2 + 2 + m.content.length % 65536) % 65536 = 5 + m.content.length := by
    omega
  rw [h1]
  have h2 : (5 + m.content.length + 2) % 65536 = m.content.length + 7 := by omega
  rw [h2]
  have hB : List.replicate 1024 (0 : Nat) = 0 :: 0 :: 0 :: List.replicate 1021 0 := rfl
  rw [hB]
  simp only [write_u16_bytes, writeAt_cons_succ, writeAt_zero, List.length_cons,
    List.length_nil, List.drop_replicate, List.cons_append, List.nil_append,
    List.drop_succ_cons, List.drop_zero]

theorem encode_frame_say (m : Message) (hk : m.content.length ≤ 1017) :
    encode_frame (.Say m)
      = .ok ((5 + m.content.length) / 256 % 256 :: (5 + m.content.length) % 256 :: 1 ::
             m.from_ / 256 % 256 :: m.from_ % 256 ::
             m.to_ / 256 % 256 :: m.to_ % 256 :: m.content) := by
  unfold encode_frame
  rw [encode_packet_say m hk]
  simp only [List.take_succ_cons]
  rw [List.take_left]

theorem decode_packet_say_cons (la lb fa fb ta tb : Nat) (c : List Nat) :
    decode_packet (la :: lb :: 1 :: fa :: fb :: ta :: tb :: c)
      = .ok (.Say { from_ := read_u16 fa fb, to_ := read_u16 ta tb, content := c }) := by
  simp only [decode_packet, List.getD_cons_succ, List.getD_cons_zero,
    List.length_cons, List.drop_succ_cons, List.drop_nil]
  rw [if_neg (by omega)]
  norm_num

/-- C1: round-trip.  For every ChatMessage m with u16 from and to and
content of at most 1017 bytes, decoding the first n bytes the encoder
produced (n the count encode returned) yields Say(m) with from, to and
content reproduced exactly. -/
theorem say_round_trip (m : Message) (hf : m.from_ < 65536) (ht : m.to_ < 65536)
    (hk : m.content.length ≤ 1017) :
    ∃ frame, encode_frame (.Say m) = .ok frame ∧
      decode_packet frame = .ok (.Say m) := by
  refine ⟨_, encode_frame_say m hk, ?_⟩
  rw [decode_packet_say_cons]
  have h1 : read_u16 (m.from_ / 256 % 256) (m.from_ % 256) = m.from_ := by
    unfold read_u16
    omega
  have h2 : read_u16 (m.to_ / 256 % 256) (m.to_ % 256) = m.to_ := by
    unfold read_u16
    omega
  rw [h1, h2]

theorem say_round_trip_witness :
    (Message.mk 5 7 [104, 105]).from_ < 65536 ∧
    (Message.mk 5 7 [104, 105]).to_ < 65536 ∧
    (Message.mk 5 7 [104, 105]).content.length ≤ 1017 ∧
    ∃ frame, encode_frame (.Say (Message.mk 5 7 [104, 105])) = .ok frame ∧
      decode_packet frame = .ok (.Say (Message.mk 5 7 [104, 105])) :=
  ⟨by decide, by decide, by decide,
   say_round_trip (Message.mk 5 7 [104, 105]) (by decide) (by decide) (by decide)⟩

theorem encode_user_list_bytes_witness :
    3 ≤ (List.replicate 1024 (0 : Nat)).length ∧
    encode_packet .UserList (List.replicate 1024 0)
      = .ok (0 :: 1 :: 0 :: (List.replicate 1024 (0 : Nat)).drop 3, 3) :=
  ⟨by rw [List.length_replicate]; omega,
   encode_user_list_bytes (List.replicate 1024 0) (by rw [List.length_replicate]; omega)⟩
